import Mathlib

/-!
Verification development for the paint-tool repository
(`src/assets/js/painttool.js`).

The file gives a shallow embedding of the drawing core: the shape
classes (`Rectangle`, `Oval`, `Circle`, `Line`, `LineList`, `EraseList`,
`DrawnText`), the drawer state with its event handlers, the two-stack
undo/redo machine, and the JSON persistence codec.  Canvas painting is
modelled as the list of 2d-context commands a `render` call issues.
JavaScript numbers are modelled as `ℚ`, with `Option ℚ` where an
expression can evaluate to `undefined`/`NaN` (reading past the end of an
array propagates as `none`).  Thrown `TypeError`s are modelled with
`Except`.
-/

/-- A 2d point `{x, y}` as used for `position`, `endPosition`, and mouse
coordinates in the source. -/
structure Pt where
  x : ℚ
  y : ℚ
  deriving DecidableEq

/-- The settings record `{color, filled, width, font}` (source lines
544-549 give the initial value).  JavaScript strings are immutable, so
the `.slice(0, length)` copies in `currentSettings` are the identity on
the string value; the copy's significance (object identity) is modelled
separately by the settings-heap development further below. -/
structure Settings where
  color : String
  filled : Bool
  width : ℚ
  font : String
  deriving DecidableEq

/-- The drawer's initial ambient settings (source lines 544-549). -/
def initialSettings : Settings :=
  { color := "#000000", filled := false, width := 10, font := "36pt sans-serif" }

/-- The variant-tagged shape objects.  Each constructor carries exactly
the instance fields the corresponding class stores: `Shape` contributes
`position` and `settings`; `Rectangle` adds `width`/`height`; `Oval`
(and `Circle`, which subclasses it) adds `xRadius`, `yRadius` and the
second point `x`, `y`; `Line` adds `endPosition`; `LineList` and
`EraseList` keep the two synchronized coordinate arrays `xList`/`yList`;
`DrawnText` keeps the character array `chars` (an array of length-1
strings). -/
inductive ShapeObj where
  | rect (position : Pt) (settings : Settings) (width height : ℚ)
  | oval (position : Pt) (settings : Settings) (xRadius yRadius : ℚ) (x y : ℚ)
  | circle (position : Pt) (settings : Settings) (xRadius yRadius : ℚ) (x y : ℚ)
  | line (position : Pt) (settings : Settings) (endPosition : Pt)
  | lineList (position : Pt) (settings : Settings) (xList yList : List ℚ)
  | eraseList (position : Pt) (settings : Settings) (xList yList : List ℚ)
  | drawnText (position : Pt) (settings : Settings) (chars : List String)
  deriving DecidableEq

/-- The `Oval` constructor (source lines 104-113): stores the radii and
initializes the second point `(this.x, this.y)` to the anchor position. -/
def mkOval (position : Pt) (settings : Settings) (xRadius yRadius : ℚ) : ShapeObj :=
  ShapeObj.oval position settings xRadius yRadius position.x position.y

/-- The `Circle` constructor (source lines 153-155): `super(position,
settings, radius, radius)`. -/
def mkCircle (position : Pt) (settings : Settings) (radius : ℚ) : ShapeObj :=
  ShapeObj.circle position settings radius radius position.x position.y

/-- The `Line` constructor (source lines 180-183): copies the end point's
coordinates into a fresh record. -/
def mkLine (startPosition : Pt) (settings : Settings) (endPosition : Pt) : ShapeObj :=
  ShapeObj.line startPosition settings ⟨endPosition.x, endPosition.y⟩

/-- The numeric `resize(x, y)` methods of each class.  `DrawnText.resize`
takes a key string instead; a call with a numeric first argument falls
through both of its guards (`5 === 'Backspace'` is false and `(5).length`
is `undefined`, which is not `=== 1`), leaving the chars unchanged. -/
def resizeShape : ShapeObj → ℚ → ℚ → ShapeObj
  | ShapeObj.rect p s _ _, x, y => ShapeObj.rect p s (x - p.x) (y - p.y)
  | ShapeObj.oval p s _ _ _ _, x, y =>
      ShapeObj.oval p s (|x - p.x| / 2) (|y - p.y| / 2) x y
  | ShapeObj.circle p s _ _ _ _, x, y =>
      ShapeObj.circle p s (max |x - p.x| |y - p.y| / 2) (max |x - p.x| |y - p.y| / 2) x y
  | ShapeObj.line p s _, x, y => ShapeObj.line p s ⟨x, y⟩
  | ShapeObj.lineList p s xs ys, x, y => ShapeObj.lineList p s (xs ++ [x]) (ys ++ [y])
  | ShapeObj.eraseList p s xs ys, x, y => ShapeObj.eraseList p s (xs ++ [x]) (ys ++ [y])
  | ShapeObj.drawnText p s cs, _, _ => ShapeObj.drawnText p s cs

/-- `DrawnText.resize(key)` (source lines 330-343): `"Backspace"` pops
the last character when there is one; a single-character key is pushed;
every other key is discarded.  (JavaScript measures `key.length` in
UTF-16 units; for the ASCII key names involved this agrees with
`String.length`.) -/
def resizeKey (cs : List String) (key : String) : List String :=
  if key = "Backspace" then
    if cs.length > 0 then cs.dropLast else cs
  else if key.length = 1 then cs ++ [key]
  else cs

/-- The key-driven `resize` lifted to shapes.  Only `DrawnText`
overrides `resize` with a key parameter; the handlers only reach this
call with a `DrawnText` selected (a non-text shape given a string key
would get `NaN` fields from JavaScript's coercions — that situation is
unreachable from the guarded handlers and no theorem relies on this
fallback arm). -/
def resizeKeyShape : ShapeObj → String → ShapeObj
  | ShapeObj.drawnText p s cs, key => ShapeObj.drawnText p s (resizeKey cs key)
  | sh, _ => sh

/-- The 2d-context commands a `render` method can issue.  Coordinates of
`quadraticCurveTo` are `Option ℚ` because the source indexes past the
end of `xList`/`yList` there: a missing index is `undefined` and any
arithmetic on it is `NaN`, both modelled as `none`.  The constant
rotation/angle arguments of `ellipse` are omitted. -/
inductive RenderCmd where
  | setCompositeSourceOver
  | setCompositeDestinationOut
  | setFillStyle (c : String)
  | setStrokeStyle (c : String)
  | setLineWidth (w : ℚ)
  | setFont (f : String)
  | beginPath
  | closePath
  | moveTo (x y : ℚ)
  | lineTo (x y : ℚ)
  | quadraticCurveTo (cx cy ex ey : Option ℚ)
  | stroke
  | fill
  | fillRect (x y w h : ℚ)
  | strokeRect (x y w h : ℚ)
  | ellipse (cx cy rx ry : ℚ)
  | fillText (s : String) (x y : ℚ)
  deriving DecidableEq

/-- The base `Shape.render` (source lines 25-30): installs the shape's
own settings snapshot on the context. -/
def renderSettingsCmds (s : Settings) : List RenderCmd :=
  [RenderCmd.setFillStyle s.color, RenderCmd.setStrokeStyle s.color,
   RenderCmd.setLineWidth s.width, RenderCmd.setFont s.font]

/-- JavaScript addition where either operand may be `undefined`/`NaN`. -/
def addOpt : Option ℚ → Option ℚ → Option ℚ
  | some a, some b => some (a + b)
  | _, _ => none

/-- JavaScript halving where the operand may be `NaN`. -/
def halfOpt : Option ℚ → Option ℚ
  | some a => some (a / 2)
  | none => none

/-- One non-break iteration of the smoothing loop in `LineList.render` /
`EraseList.render` (source lines 229-236 and 276-283): control point is
the raw point at `i`, endpoint is the midpoint of the points at `i` and
`i + 1` (reading index `i + 1` past the end yields `undefined`, hence a
`NaN` midpoint). -/
def quadSegment (xs ys : List ℚ) (i : Nat) : RenderCmd :=
  RenderCmd.quadraticCurveTo (xs.get? i) (ys.get? i)
    (halfOpt (addOpt (xs.get? i) (xs.get? (i + 1))))
    (halfOpt (addOpt (ys.get? i) (ys.get? (i + 1))))

/-- The full smoothing loop: `for (let i = 0; ; i++)` runs the midpoint
branch for every `i` with `i ≤ xList.length - 1`, and on the first `i`
with `i > xList.length - 1` (that is, `i = xList.length`) it issues the
break-branch curve reading indices `xList.length` and `xList.length + 1`
— both past the end of the array. -/
def curveCmds (xs ys : List ℚ) : List RenderCmd :=
  (List.range xs.length).map (quadSegment xs ys) ++
    [RenderCmd.quadraticCurveTo (xs.get? xs.length) (ys.get? xs.length)
      (xs.get? (xs.length + 1)) (ys.get? (xs.length + 1))]

/-- The `render` method of each class, as its issued command list.
`Circle` inherits `Oval.render`.  Note the differing order in
`EraseList.render` (source lines 270-286): `super.render` first, then
`beginPath`, then the `destination-out` composite mode. -/
def ShapeObj.render : ShapeObj → List RenderCmd
  | ShapeObj.rect p s w h =>
      RenderCmd.setCompositeSourceOver :: renderSettingsCmds s ++
        (if s.filled then [RenderCmd.fillRect p.x p.y w h]
         else [RenderCmd.strokeRect p.x p.y w h])
  | ShapeObj.oval p s rx ry x y =>
      RenderCmd.setCompositeSourceOver :: renderSettingsCmds s ++
        [RenderCmd.beginPath, RenderCmd.ellipse ((p.x + x) / 2) ((p.y + y) / 2) rx ry] ++
        (if s.filled then [RenderCmd.fill] else [RenderCmd.stroke, RenderCmd.closePath])
  | ShapeObj.circle p s rx ry x y =>
      RenderCmd.setCompositeSourceOver :: renderSettingsCmds s ++
        [RenderCmd.beginPath, RenderCmd.ellipse ((p.x + x) / 2) ((p.y + y) / 2) rx ry] ++
        (if s.filled then [RenderCmd.fill] else [RenderCmd.stroke, RenderCmd.closePath])
  | ShapeObj.line p s e =>
      RenderCmd.setCompositeSourceOver :: renderSettingsCmds s ++
        [RenderCmd.beginPath, RenderCmd.moveTo p.x p.y, RenderCmd.lineTo e.x e.y,
         RenderCmd.stroke, RenderCmd.closePath]
  | ShapeObj.lineList p s xs ys =>
      RenderCmd.setCompositeSourceOver :: renderSettingsCmds s ++
        [RenderCmd.beginPath, RenderCmd.moveTo p.x p.y] ++ curveCmds xs ys ++
        [RenderCmd.stroke, RenderCmd.closePath]
  | ShapeObj.eraseList p s xs ys =>
      renderSettingsCmds s ++
        [RenderCmd.beginPath, RenderCmd.setCompositeDestinationOut,
         RenderCmd.moveTo p.x p.y] ++ curveCmds xs ys ++
        [RenderCmd.stroke, RenderCmd.closePath]
  | ShapeObj.drawnText p s cs =>
      RenderCmd.setCompositeSourceOver :: renderSettingsCmds s ++
        [RenderCmd.fillText (String.join cs) p.x p.y]

/-- Extract the `lineWidth` assignments from a command list. -/
def lineWidths : List RenderCmd → List ℚ
  | [] => []
  | RenderCmd.setLineWidth w :: rest => w :: lineWidths rest
  | _ :: rest => lineWidths rest

/-- `drawer.drawAllStoredShapes` (source lines 575-581): renders every
entry of `shapes` in order, skipping falsy (`null`) entries. -/
def drawAllStoredShapes (shapes : List (Option ShapeObj)) : List RenderCmd :=
  shapes.foldl (fun acc sh => match sh with
    | some s => acc ++ s.render
    | none => acc) []

/-- JSON values as produced by `JSON.parse` on a saved file. -/
inductive Json where
  | null
  | bool (b : Bool)
  | num (q : ℚ)
  | str (s : String)
  | arr (xs : List Json)
  | obj (fields : List (String × Json))

/-- Errors a load can throw.  `typeError` models a genuine JavaScript
`TypeError` (property access on `null`/`undefined`).  `outOfModel` marks
records whose fields are not of the serialized shape types: JavaScript
would construct a shape carrying `undefined`/mistyped fields without
throwing at load time; such values lie outside this embedding's value
domain and no theorem depends on those branches. -/
inductive JsError where
  | typeError
  | outOfModel
  deriving DecidableEq

/-- JavaScript property read `j[k]`: throws a `TypeError` on `null`,
returns the field on an object carrying it, and `undefined` (`none`)
otherwise — numbers, strings, booleans and arrays have none of the
property names the codec reads. -/
def Json.getField : Json → String → Except JsError (Option Json)
  | Json.null, _ => Except.error JsError.typeError
  | Json.obj fs, k => Except.ok (fs.lookup k)
  | _, _ => Except.ok none

/-- The value `jsonShape.type` is compared against the seven case labels
of the `switch` in `createShapeFromJson` (source lines 1097-1155).  A
missing or non-string `type` can match no case label; the empty-string
sentinel used here is itself matched by no label, so it is a faithful
stand-in for those values.  Reading the field of a `null` record throws
before the comparison; `createShapeFromJson` handles that case first. -/
def jsTag : Json → String
  | Json.obj fs =>
      match fs.lookup "type" with
      | some (Json.str t) => t
      | _ => ""
  | _ => ""

/-- Read a numeric field. -/
def readRat (j : Json) (k : String) : Except JsError ℚ := do
  match ← j.getField k with
  | some (Json.num q) => pure q
  | _ => Except.error JsError.outOfModel

/-- Read a point-valued field.  The source merely stores the record
(`this.position = position`) without touching `x`/`y` at load time; a
non-point value would only explode later, at render.  Reading it
strictly here is the `outOfModel` compromise documented on `JsError`. -/
def readPt (j : Json) (k : String) : Except JsError Pt := do
  match ← j.getField k with
  | some (Json.obj fs) =>
      match fs.lookup "x", fs.lookup "y" with
      | some (Json.num x), some (Json.num y) => pure ⟨x, y⟩
      | _, _ => Except.error JsError.outOfModel
  | _ => Except.error JsError.outOfModel

/-- Read a settings-valued field, same strictness compromise as
`readPt`. -/
def readSettings (j : Json) (k : String) : Except JsError Settings := do
  match ← j.getField k with
  | some (Json.obj fs) =>
      match fs.lookup "color", fs.lookup "filled", fs.lookup "width", fs.lookup "font" with
      | some (Json.str c), some (Json.bool b), some (Json.num w), some (Json.str f) =>
          pure { color := c, filled := b, width := w, font := f }
      | _, _, _, _ => Except.error JsError.outOfModel
  | _ => Except.error JsError.outOfModel

/-- All-numeric JSON array contents. -/
def ratList? : List Json → Option (List ℚ)
  | [] => some []
  | Json.num q :: rest => (ratList? rest).map (fun l => q :: l)
  | _ => none

/-- All-string JSON array contents. -/
def strList? : List Json → Option (List String)
  | [] => some []
  | Json.str s :: rest => (strList? rest).map (fun l => s :: l)
  | _ => none

/-- Read a coordinate-array field for the `LineList`/`EraseList` replay
loops.  `jsonShape.xList.length` throws a `TypeError` when the field is
missing (`undefined.length`) or `null`; an array of anything but numbers
is outside the embedded value domain. -/
def readRatArr (j : Json) (k : String) : Except JsError (List ℚ) := do
  match ← j.getField k with
  | none => Except.error JsError.typeError
  | some Json.null => Except.error JsError.typeError
  | some (Json.arr xs) =>
      match ratList? xs with
      | some qs => pure qs
      | none => Except.error JsError.outOfModel
  | some _ => Except.error JsError.outOfModel

/-- Read the `chars` field for the `DrawnText` replay loop, with the
same throw behaviour as `readRatArr`. -/
def readStrArr (j : Json) (k : String) : Except JsError (List String) := do
  match ← j.getField k with
  | none => Except.error JsError.typeError
  | some Json.null => Except.error JsError.typeError
  | some (Json.arr xs) =>
      match strList? xs with
      | some cs => pure cs
      | none => Except.error JsError.outOfModel
  | some _ => Except.error JsError.outOfModel

/-- The `"Rectangle"` case: `new Rectangle(position, settings, width,
height)`. -/
def decodeRect (j : Json) : Except JsError (Option ShapeObj) := do
  let p ← readPt j "position"
  let s ← readSettings j "settings"
  let w ← readRat j "width"
  let h ← readRat j "height"
  pure (some (ShapeObj.rect p s w h))

/-- The `"Oval"` case: `new Oval(position, settings, xRadius, yRadius)`.
The constructor resets the second point `(x, y)` to the anchor position;
the stored `x`/`y` fields of the record are never read back. -/
def decodeOval (j : Json) : Except JsError (Option ShapeObj) := do
  let p ← readPt j "position"
  let s ← readSettings j "settings"
  let rx ← readRat j "xRadius"
  let ry ← readRat j "yRadius"
  pure (some (mkOval p s rx ry))

/-- The `"Circle"` case: `new Circle(position, settings, xRadius)` —
like `Oval`, the stored second point is discarded. -/
def decodeCircle (j : Json) : Except JsError (Option ShapeObj) := do
  let p ← readPt j "position"
  let s ← readSettings j "settings"
  let r ← readRat j "xRadius"
  pure (some (mkCircle p s r))

/-- The `"Line"` case: `new Line(position, settings, endPosition)`. -/
def decodeLine (j : Json) : Except JsError (Option ShapeObj) := do
  let p ← readPt j "position"
  let s ← readSettings j "settings"
  let e ← readPt j "endPosition"
  pure (some (mkLine p s e))

/-- The `"LineList"` case: a fresh `LineList` grown by replaying
`resize(xList[j], yList[j])` for every index of `xList`, exactly the
interactive extend operation.  A `yList` shorter than `xList` would push
`undefined` coordinates — outside the embedded value domain. -/
def decodeLineList (j : Json) : Except JsError (Option ShapeObj) := do
  let p ← readPt j "position"
  let s ← readSettings j "settings"
  let xs ← readRatArr j "xList"
  let ys ← readRatArr j "yList"
  if xs.length ≤ ys.length then
    pure (some ((List.range xs.length).foldl
      (fun sh i => resizeShape sh (xs.getD i 0) (ys.getD i 0))
      (ShapeObj.lineList p s [] [])))
  else Except.error JsError.outOfModel

/-- The `"EraseList"` case, identical replay on a fresh `EraseList`. -/
def decodeEraseList (j : Json) : Except JsError (Option ShapeObj) := do
  let p ← readPt j "position"
  let s ← readSettings j "settings"
  let xs ← readRatArr j "xList"
  let ys ← readRatArr j "yList"
  if xs.length ≤ ys.length then
    pure (some ((List.range xs.length).foldl
      (fun sh i => resizeShape sh (xs.getD i 0) (ys.getD i 0))
      (ShapeObj.eraseList p s [] [])))
  else Except.error JsError.outOfModel

/-- The `"DrawnText"` case: a fresh `DrawnText` grown by replaying
`resize(chars[j])` character by character. -/
def decodeDrawnText (j : Json) : Except JsError (Option ShapeObj) := do
  let p ← readPt j "position"
  let s ← readSettings j "settings"
  let cs ← readStrArr j "chars"
  pure (some (cs.foldl (fun sh c => resizeKeyShape sh c) (ShapeObj.drawnText p s [])))

/-- `createShapeFromJson` (source lines 1097-1155): reading `.type` on a
`null` record throws; otherwise the `switch` dispatches on the tag, and
a record whose tag matches no case is skipped (`Except.ok none` — the
function returns without pushing anything). -/
def createShapeFromJson (j : Json) : Except JsError (Option ShapeObj) :=
  match j with
  | Json.null => Except.error JsError.typeError
  | _ =>
      if jsTag j = "Rectangle" then decodeRect j
      else if jsTag j = "Oval" then decodeOval j
      else if jsTag j = "Circle" then decodeCircle j
      else if jsTag j = "Line" then decodeLine j
      else if jsTag j = "LineList" then decodeLineList j
      else if jsTag j = "EraseList" then decodeEraseList j
      else if jsTag j = "DrawnText" then decodeDrawnText j
      else Except.ok none

/-- The decode loop of `constructShapesFromFile` (source lines
1170-1172): records are processed in order, each successfully decoded
shape is appended, a skipped record leaves the list as is, and a thrown
`TypeError` aborts the loop — the shapes pushed so far survive, the
remaining records are never decoded. -/
def decodeAll : List Json → List (Option ShapeObj) →
    List (Option ShapeObj) × Option JsError
  | [], acc => (acc, none)
  | j :: rest, acc =>
      match createShapeFromJson j with
      | Except.error e => (acc, some e)
      | Except.ok none => decodeAll rest acc
      | Except.ok (some sh) => decodeAll rest (acc ++ [some sh])

/-- Encoding of a point by `JSON.stringify`. -/
def encodePt (p : Pt) : Json :=
  Json.obj [("x", Json.num p.x), ("y", Json.num p.y)]

/-- Encoding of a settings snapshot by `JSON.stringify`. -/
def encodeSettings (s : Settings) : Json :=
  Json.obj [("color", Json.str s.color), ("filled", Json.bool s.filled),
            ("width", Json.num s.width), ("font", Json.str s.font)]

/-- One record of `createJsonBlob` (source lines 1063-1071):
`JSON.parse(JSON.stringify(shape))` lists the shape's own fields in
insertion order, then `tmp["type"] = constructor.name` appends the
variant tag. -/
def encodeShape : ShapeObj → Json
  | ShapeObj.rect p s w h =>
      Json.obj [("position", encodePt p), ("settings", encodeSettings s),
                ("width", Json.num w), ("height", Json.num h),
                ("type", Json.str "Rectangle")]
  | ShapeObj.oval p s rx ry x y =>
      Json.obj [("position", encodePt p), ("settings", encodeSettings s),
                ("xRadius", Json.num rx), ("yRadius", Json.num ry),
                ("x", Json.num x), ("y", Json.num y),
                ("type", Json.str "Oval")]
  | ShapeObj.circle p s rx ry x y =>
      Json.obj [("position", encodePt p), ("settings", encodeSettings s),
                ("xRadius", Json.num rx), ("yRadius", Json.num ry),
                ("x", Json.num x), ("y", Json.num y),
                ("type", Json.str "Circle")]
  | ShapeObj.line p s e =>
      Json.obj [("position", encodePt p), ("settings", encodeSettings s),
                ("endPosition", encodePt e),
                ("type", Json.str "Line")]
  | ShapeObj.lineList p s xs ys =>
      Json.obj [("position", encodePt p), ("settings", encodeSettings s),
                ("xList", Json.arr (xs.map Json.num)),
                ("yList", Json.arr (ys.map Json.num)),
                ("type", Json.str "LineList")]
  | ShapeObj.eraseList p s xs ys =>
      Json.obj [("position", encodePt p), ("settings", encodeSettings s),
                ("xList", Json.arr (xs.map Json.num)),
                ("yList", Json.arr (ys.map Json.num)),
                ("type", Json.str "EraseList")]
  | ShapeObj.drawnText p s cs =>
      Json.obj [("position", encodePt p), ("settings", encodeSettings s),
                ("chars", Json.arr (cs.map Json.str)),
                ("type", Json.str "DrawnText")]

/-- The mutable state of the `drawer` object (source lines 519-626)
together with the DOM pieces the handlers read.  `shapes` and
`undoneShapes` hold `Option ShapeObj` because the shape-list click
handler pushes `drawer.selectedElement` even when it is `null` (source
line 884). -/
structure DrawerState where
  shapes : List (Option ShapeObj)
  undoneShapes : List (Option ShapeObj)
  selectedShape : String
  selectedElement : Option ShapeObj
  settings : Settings
  deriving DecidableEq

/-- The drawer before any event (source lines 519-549). -/
def initDrawer : DrawerState :=
  { shapes := [], undoneShapes := [], selectedShape := "lineList",
    selectedElement := none, settings := initialSettings }

/-- `drawer.currentSettings()` (source lines 555-562): a deep copy of
the ambient settings.  With value semantics for immutable strings the
copy is the settings value itself. -/
def currentSettings (st : DrawerState) : Settings := st.settings

/-- `drawer.currentSettingsEraser()` (source lines 563-570): the same
copy with `width + 10`. -/
def currentSettingsEraser (st : DrawerState) : Settings :=
  { st.settings with width := st.settings.width + 10 }

/-- `drawer.undo` (source lines 620-625): when `shapes` is non-empty,
pop its last element and push it onto `undoneShapes`; otherwise do
nothing.  The `redraw()` call touches only the canvas. -/
def undoStep (st : DrawerState) : DrawerState :=
  match st.shapes.getLast? with
  | some sh => { st with shapes := st.shapes.dropLast,
                         undoneShapes := st.undoneShapes ++ [sh] }
  | none => st

/-- `drawer.redo` (source lines 611-616): when `undoneShapes` is
non-empty, pop its last element back onto `shapes`; otherwise do
nothing. -/
def redoStep (st : DrawerState) : DrawerState :=
  match st.undoneShapes.getLast? with
  | some sh => { st with undoneShapes := st.undoneShapes.dropLast,
                         shapes := st.shapes ++ [sh] }
  | none => st

/-- The `mousedown` handler (source lines 676-727): constructs a fresh
in-progress shape for the selected tool from a settings copy (the
widened copy for the eraser).  Under the text tool, an in-progress
element is first pushed into `shapes` and the redo stack is cleared,
before a fresh `DrawnText` replaces it.  The `move` tool and any other
tag construct nothing. -/
def mousedownStep (st : DrawerState) (pos : Pt) : DrawerState :=
  if st.selectedShape = "rectangle" then
    { st with selectedElement := some (ShapeObj.rect pos (currentSettings st) 0 0) }
  else if st.selectedShape = "oval" then
    { st with selectedElement := some (mkOval pos (currentSettings st) 0 0) }
  else if st.selectedShape = "circle" then
    { st with selectedElement := some (mkCircle pos (currentSettings st) 0) }
  else if st.selectedShape = "line" then
    { st with selectedElement := some (mkLine pos (currentSettings st) pos) }
  else if st.selectedShape = "lineList" then
    { st with selectedElement := some (ShapeObj.lineList pos (currentSettings st) [] []) }
  else if st.selectedShape = "eraseList" then
    { st with selectedElement := some (ShapeObj.eraseList pos (currentSettingsEraser st) [] []) }
  else if st.selectedShape = "text" then
    let st1 := if st.selectedElement.isSome then
        { st with shapes := st.shapes ++ [st.selectedElement], undoneShapes := [] }
      else st
    { st1 with selectedElement := some (ShapeObj.drawnText pos (currentSettings st1) []) }
  else st

/-- The `mousemove` handler (source lines 731-747): resizes the
in-progress shape unless the text tool is active. -/
def mousemoveStep (st : DrawerState) (x y : ℚ) : DrawerState :=
  if st.selectedElement.isSome ∧ st.selectedShape ≠ "text" then
    { st with selectedElement := st.selectedElement.map (fun el => resizeShape el x y) }
  else st

/-- The `mouseup` handler (source lines 751-769): commits the
in-progress shape — unless the text tool is active — and clears the
redo stack. -/
def mouseupStep (st : DrawerState) : DrawerState :=
  if st.selectedElement.isSome ∧ st.selectedShape ≠ "text" then
    { st with shapes := st.shapes ++ [st.selectedElement],
              selectedElement := none, undoneShapes := [] }
  else st

/-- `textKeyPress` (source lines 781-790): `Enter` commits the text
being drawn and clears the redo stack; any other key is forwarded to
`DrawnText.resize`.  The `keypress` handler only calls this with a
selected element present. -/
def textKeyPressStep (st : DrawerState) (key : String) : DrawerState :=
  if key = "Enter" then
    { st with shapes := st.shapes ++ [st.selectedElement],
              selectedElement := none, undoneShapes := [] }
  else
    { st with selectedElement := st.selectedElement.map (fun el => resizeKeyShape el key) }

/-- The `keypress` handler (source lines 792-815): text composition has
priority; otherwise `Ctrl+Z`/`Ctrl+Shift+Z` trigger undo/redo. -/
def keypressStep (st : DrawerState) (key : String) (ctrl shiftK : Bool) : DrawerState :=
  if st.selectedShape = "text" ∧ st.selectedElement.isSome then
    textKeyPressStep st key
  else if key.toUpper = "Z" ∧ ctrl then
    if shiftK then redoStep st else undoStep st
  else st

/-- The `keydown` handler (source lines 820-843): only forwards
`Backspace` to the text being drawn. -/
def keydownStep (st : DrawerState) (key : String) : DrawerState :=
  if st.selectedShape = "text" ∧ st.selectedElement.isSome then
    if key = "Backspace" then
      { st with selectedElement := st.selectedElement.map (fun el => resizeKeyShape el key) }
    else st
  else st

/-- The shape-list click handler (source lines 875-897).  `fillNo`
mirrors the fill toggle's DOM dataset.  Clicking the text tool pushes
`drawer.selectedElement` into `shapes` unconditionally — a `null` when
nothing is in progress — and clears the redo stack; then a click on a
different tool than the current one drops the in-progress element and
switches the tool. -/
def clickShapeStep (st : DrawerState) (clicked : String) (fillNo : Bool) : DrawerState :=
  let st1 := if fillNo then { st with settings := { st.settings with filled := false } } else st
  let st2 := if clicked = "text" then
      { st1 with settings := { st1.settings with filled := true },
                 shapes := st1.shapes ++ [st1.selectedElement],
                 undoneShapes := [] }
    else st1
  if clicked ≠ st2.selectedShape then
    { st2 with selectedElement := none, selectedShape := clicked }
  else st2

/-- `constructShapesFromFile` (source lines 1164-1174): clear the
in-progress element, the committed list and the redo stack, then decode
every record in order.  A thrown record leaves the shapes decoded so
far in place and skips the rest (and the final redraw). -/
def loadStep (st : DrawerState) (records : List Json) : DrawerState :=
  { st with selectedElement := none,
            shapes := (decodeAll records []).1,
            undoneShapes := [] }

/-- The clear-canvas handler (source lines 1215-1228). -/
def clearStep (st : DrawerState) : DrawerState :=
  { st with selectedElement := none, shapes := [], undoneShapes := [] }

/-- The color-picker change handler (source lines 934-944). -/
def setColorStep (st : DrawerState) (c : String) : DrawerState :=
  { st with settings := { st.settings with color := c } }

/-- The fill-toggle click handler (source lines 906-927), parametrized
by the resulting boolean. -/
def setFilledStep (st : DrawerState) (b : Bool) : DrawerState :=
  { st with settings := { st.settings with filled := b } }

/-- The size-modal confirm handler (source lines 1035-1050): installs
the new line width, and rebuilds the font string from the chosen size
and the previous font family. -/
def applySizesStep (st : DrawerState) (w : ℚ) (fpt : String) : DrawerState :=
  { st with settings := { st.settings with
      width := w,
      font := fpt ++ " " ++ ((st.settings.font.splitOn " ").getD 1 "") } }

/-- The external events the core reacts to. -/
inductive Ev where
  | mousedown (pos : Pt)
  | mousemove (x y : ℚ)
  | mouseup
  | keypress (key : String) (ctrl shiftK : Bool)
  | keydown (key : String)
  | clickUndo
  | clickRedo
  | clickShape (tag : String) (fillNo : Bool)
  | clickClear
  | load (records : List Json)
  | setColor (c : String)
  | setFilled (b : Bool)
  | applySizes (w : ℚ) (fpt : String)

/-- One event-handler dispatch. -/
def step : DrawerState → Ev → DrawerState
  | st, Ev.mousedown pos => mousedownStep st pos
  | st, Ev.mousemove x y => mousemoveStep st x y
  | st, Ev.mouseup => mouseupStep st
  | st, Ev.keypress key ctrl shiftK => keypressStep st key ctrl shiftK
  | st, Ev.keydown key => keydownStep st key
  | st, Ev.clickUndo => undoStep st
  | st, Ev.clickRedo => redoStep st
  | st, Ev.clickShape tag fillNo => clickShapeStep st tag fillNo
  | st, Ev.clickClear => clearStep st
  | st, Ev.load records => loadStep st records
  | st, Ev.setColor c => setColorStep st c
  | st, Ev.setFilled b => setFilledStep st b
  | st, Ev.applySizes w fpt => applySizesStep st w fpt

/-- Object identity of settings records.  `drawer.settings` is one
JavaScript object; every call of `currentSettings()` /
`currentSettingsEraser()` allocates a fresh object holding copies of its
fields (source lines 555-570), and `beginShape` hands that fresh object
to the new shape.  The handlers for the color picker, the fill toggle
and the size modal assign into the fields of `drawer.settings` itself.
To reason about this aliasing structure the settings objects live in an
explicit heap: cell `0` is `drawer.settings`, and each shape records the
index of the cell it owns. -/
structure HeapState where
  heap : List Settings
  ambient : Nat
  committedRefs : List Nat
  undoneRefs : List Nat
  selRef : Option Nat
  deriving DecidableEq

/-- The heap at startup: only `drawer.settings` exists. -/
def initHeap : HeapState :=
  { heap := [initialSettings], ambient := 0, committedRefs := [],
    undoneRefs := [], selRef := none }

/-- Allocate a fresh settings object copying the ambient one, with the
eraser's `width + 10` offset when requested — the body of
`currentSettings()` / `currentSettingsEraser()`. -/
def allocCopy (st : HeapState) (extraWidth : ℚ) : HeapState × Nat :=
  let amb := st.heap.getD st.ambient initialSettings
  ({ st with heap := st.heap ++ [{ amb with width := amb.width + extraWidth }] },
   st.heap.length)

/-- Write into the fields of the ambient `drawer.settings` object. -/
def mutateAmbient (st : HeapState) (f : Settings → Settings) : HeapState :=
  { st with heap := st.heap.set st.ambient (f (st.heap.getD st.ambient initialSettings)) }

/-- The heap-level events: beginning a shape (`mousedown`, with the
eraser variant), committing it (`mouseup` / `Enter` / text-tool click),
undo, redo, and the four ambient-settings mutations. -/
inductive HEv where
  | beginShape
  | beginEraser
  | commit
  | hUndo
  | hRedo
  | setColor (c : String)
  | setWidth (w : ℚ)
  | setFilled (b : Bool)
  | setFont (f : String)

/-- Heap-level transition function. -/
def hstep : HeapState → HEv → HeapState
  | st, HEv.beginShape =>
      let p := allocCopy st 0
      { p.1 with selRef := some p.2 }
  | st, HEv.beginEraser =>
      let p := allocCopy st 10
      { p.1 with selRef := some p.2 }
  | st, HEv.commit =>
      match st.selRef with
      | some r => { st with committedRefs := st.committedRefs ++ [r],
                            selRef := none, undoneRefs := [] }
      | none => st
  | st, HEv.hUndo =>
      match st.committedRefs.getLast? with
      | some r => { st with committedRefs := st.committedRefs.dropLast,
                            undoneRefs := st.undoneRefs ++ [r] }
      | none => st
  | st, HEv.hRedo =>
      match st.undoneRefs.getLast? with
      | some r => { st with undoneRefs := st.undoneRefs.dropLast,
                            committedRefs := st.committedRefs ++ [r] }
      | none => st
  | st, HEv.setColor c => mutateAmbient st (fun s => { s with color := c })
  | st, HEv.setWidth w => mutateAmbient st (fun s => { s with width := w })
  | st, HEv.setFilled b => mutateAmbient st (fun s => { s with filled := b })
  | st, HEv.setFont f => mutateAmbient st (fun s => { s with font := f })

/-- States reachable from startup. -/
inductive HeapReach : HeapState → Prop where
  | init : HeapReach initHeap
  | step (st : HeapState) (e : HEv) : HeapReach st → HeapReach (hstep st e)

/-- The aliasing invariant: the ambient object is cell `0`, every
shape-owned cell is a later, distinct cell, and all references are live. -/
def HeapInv (st : HeapState) : Prop :=
  st.ambient = 0 ∧ 1 ≤ st.heap.length ∧
    ∀ r : Nat, (r ∈ st.committedRefs ∨ r ∈ st.undoneRefs ∨ st.selRef = some r) →
      1 ≤ r ∧ r < st.heap.length

/-- A JavaScript argument value as passed to a `resize` call: the
handlers pass numbers (mouse coordinates) or strings (key names). -/
inductive JsArg where
  | num (q : ℚ)
  | str (s : String)

/-- JavaScript `ToNumber` on a string, restricted to the forms exercised
here: the empty string converts to `0` (as in JavaScript), a plain digit
string to its value, and any other string (such as a key name) to `NaN`
(`none`).  Signs, decimals and whitespace are not exercised by this
development. -/
def jsToNumber (s : String) : Option ℚ :=
  (s.data.foldl
    (fun acc c =>
      match acc with
      | some a => if c.isDigit then some (a * 10 + (c.toNat - 48)) else none
      | none => none)
    (some (0 : Nat))).map (fun n => (n : ℚ))

/-- `ToNumber` on an argument value. -/
def argToNumber : JsArg → Option ℚ
  | JsArg.num q => some q
  | JsArg.str s => jsToNumber s

/-- JavaScript subtraction whose left operand may be `NaN`. -/
def subNaN : Option ℚ → ℚ → Option ℚ
  | some a, b => some (a - b)
  | none, _ => none

/-- `DrawnText.resize` called with a JavaScript value of either type.
No branch throws: a number is never `=== 'Backspace'`, and a number has
no `length` property (`undefined ≠ 1`), so a numeric argument falls
through both guards and the call returns normally with `chars`
untouched. -/
def drawnTextResizeJs (cs : List String) (key : JsArg) : Except JsError (List String) :=
  match key with
  | JsArg.str s => Except.ok (resizeKey cs s)
  | JsArg.num _ => Except.ok cs

/-- `Rectangle.resize` called with JavaScript values: `x - position.x`
coerces the operands with `ToNumber`, so a non-numeric string silently
produces `NaN` width/height — the call never throws.  The result is the
`(width, height)` pair the rectangle is left with. -/
def rectResizeJs (p : Pt) (x y : JsArg) : Except JsError (Option ℚ × Option ℚ) :=
  Except.ok (subNaN (argToNumber x) p.x, subNaN (argToNumber y) p.y)

/-- The seven case labels of the decode `switch`. -/
def knownTags : List String :=
  ["Rectangle", "Oval", "Circle", "Line", "LineList", "EraseList", "DrawnText"]

/-- The rectangle of the spec's walk-through scenario: anchor `(10,10)`
extended to `(50,40)`. -/
def goodRect : ShapeObj := ShapeObj.rect ⟨10, 10⟩ initialSettings 40 30

/-- An oval anchored at `(0,0)` and dragged to `(4,6)`: radii `(2,3)`,
second point `(4,6)` (the value `resizeShape` produces, shown by the
round-trip theorem below). -/
def ovalDragged : ShapeObj := ShapeObj.oval ⟨0, 0⟩ initialSettings 2 3 4 6

/-- What loading the saved `ovalDragged` record actually reconstructs:
the constructor resets the second point to the anchor. -/
def ovalReloaded : ShapeObj := ShapeObj.oval ⟨0, 0⟩ initialSettings 2 3 0 0

/-- A drawer state with a rectangle mid-drag and stale redo history. -/
def stInProgress : DrawerState :=
  { shapes := [some goodRect], undoneShapes := [some goodRect],
    selectedShape := "rectangle",
    selectedElement := some (ShapeObj.rect ⟨1, 1⟩ initialSettings 2 2),
    settings := initialSettings }

/-- A drawer state composing an empty text label, with stale redo
history. -/
def stTextInProgress : DrawerState :=
  { shapes := [], undoneShapes := [some goodRect], selectedShape := "text",
    selectedElement := some (ShapeObj.drawnText ⟨5, 5⟩ initialSettings []),
    settings := initialSettings }

/-- The drawer with the eraser tool selected (ambient width still the
initial `10`). -/
def stEraser : DrawerState :=
  { initDrawer with selectedShape := "eraseList" }

/-- A two-shape committed list for the undo/redo round-trip witness. -/
def stTwoShapes : DrawerState :=
  { shapes := [some goodRect, none], undoneShapes := [],
    selectedShape := "rectangle", selectedElement := none,
    settings := initialSettings }

/-- A heap state reached by beginning a shape and committing it: cell 1
is the committed shape's settings snapshot. -/
def stHeapCommitted : HeapState := hstep (hstep initHeap HEv.beginShape) HEv.commit

/-- Helper: the last element of a list is a member. -/
theorem mem_of_getLast?_eq {α : Type} {l : List α} {a : α}
    (h : l.getLast? = some a) : a ∈ l := by
  rcases List.mem_getLast?_eq_getLast (l := l) (x := a) h with ⟨hne, rfl⟩
  exact List.getLast_mem hne

/-- Helper: `List.set` at another index does not change a lookup. -/
theorem get?_set_of_ne {α : Type} (l : List α) (i j : Nat) (a : α) (h : i ≠ j) :
    (l.set i a).get? j = l.get? j := by
  simpa using List.getElem?_set_ne (l := l) (a := a) h

/-- The invariant holds initially. -/
theorem heapInv_init : HeapInv initHeap := by
  refine ⟨rfl, by simp [initHeap], ?_⟩
  intro r hr
  simp [initHeap] at hr

/-- The invariant is preserved by every heap event. -/
theorem heapInv_step (st : HeapState) (e : HEv) (h : HeapInv st) :
    HeapInv (hstep st e) := by
  obtain ⟨hamb, hlen, hrefs⟩ := h
  cases e with
  | beginShape =>
      refine ⟨hamb, ?_, ?_⟩
      · simp [hstep, allocCopy]
      · intro r hr
        simp only [hstep, allocCopy] at hr ⊢
        simp only [List.length_append, List.length_cons, List.length_nil]
        rcases hr with hc | hu | hs
        · have := hrefs r (Or.inl hc); omega
        · have := hrefs r (Or.inr (Or.inl hu)); omega
        · simp at hs; omega
  | beginEraser =>
      refine ⟨hamb, ?_, ?_⟩
      · simp [hstep, allocCopy]
      · intro r hr
        simp only [hstep, allocCopy] at hr ⊢
        simp only [List.length_append, List.length_cons, List.length_nil]
        rcases hr with hc | hu | hs
        · have := hrefs r (Or.inl hc); omega
        · have := hrefs r (Or.inr (Or.inl hu)); omega
        · simp at hs; omega
  | commit =>
      cases hsel : st.selRef with
      | none => simpa [hstep, hsel] using ⟨hamb, hlen, hrefs⟩
      | some r0 =>
          simp only [hstep, hsel]
          refine ⟨hamb, hlen, ?_⟩
          intro r hr
          simp only at hr
          rcases hr with hc | hu | hs
          · rcases List.mem_append.mp hc with hc | hc
            · exact hrefs r (Or.inl hc)
            · simp at hc
              subst hc
              exact hrefs r (Or.inr (Or.inr hsel))
          · simp at hu
          · simp at hs
  | hUndo =>
      cases hlast : st.committedRefs.getLast? with
      | none => simpa [hstep, hlast] using ⟨hamb, hlen, hrefs⟩
      | some r0 =>
          simp only [hstep, hlast]
          refine ⟨hamb, hlen, ?_⟩
          intro r hr
          simp only at hr
          rcases hr with hc | hu | hs
          · exact hrefs r (Or.inl (List.mem_of_mem_dropLast hc))
          · rcases List.mem_append.mp hu with hu | hu
            · exact hrefs r (Or.inr (Or.inl hu))
            · simp at hu
              subst hu
              exact hrefs r (Or.inl (mem_of_getLast?_eq hlast))
          · exact hrefs r (Or.inr (Or.inr hs))
  | hRedo =>
      cases hlast : st.undoneRefs.getLast? with
      | none => simpa [hstep, hlast] using ⟨hamb, hlen, hrefs⟩
      | some r0 =>
          simp only [hstep, hlast]
          refine ⟨hamb, hlen, ?_⟩
          intro r hr
          simp only at hr
          rcases hr with hc | hu | hs
          · rcases List.mem_append.mp hc with hc | hc
            · exact hrefs r (Or.inl hc)
            · simp at hc
              subst hc
              exact hrefs r (Or.inr (Or.inl (mem_of_getLast?_eq hlast)))
          · exact hrefs r (Or.inr (Or.inl (List.mem_of_mem_dropLast hu)))
          · exact hrefs r (Or.inr (Or.inr hs))
  | setColor c =>
      refine ⟨hamb, by simpa [hstep, mutateAmbient] using hlen, ?_⟩
      intro r hr
      simp only [hstep, mutateAmbient, List.length_set] at hr ⊢
      exact hrefs r hr
  | setWidth w =>
      refine ⟨hamb, by simpa [hstep, mutateAmbient] using hlen, ?_⟩
      intro r hr
      simp only [hstep, mutateAmbient, List.length_set] at hr ⊢
      exact hrefs r hr
  | setFilled b =>
      refine ⟨hamb, by simpa [hstep, mutateAmbient] using hlen, ?_⟩
      intro r hr
      simp only [hstep, mutateAmbient, List.length_set] at hr ⊢
      exact hrefs r hr
  | setFont f =>
      refine ⟨hamb, by simpa [hstep, mutateAmbient] using hlen, ?_⟩
      intro r hr
      simp only [hstep, mutateAmbient, List.length_set] at hr ⊢
      exact hrefs r hr

/-- Every reachable heap state satisfies the aliasing invariant. -/
theorem heapInv_of_reach {st : HeapState} (h : HeapReach st) : HeapInv st := by
  induction h with
  | init => exact heapInv_init
  | step st e _ ih => exact heapInv_step st e ih

/-- `redo` is a no-op on an empty undone stack. -/
theorem redoStep_noop (st : DrawerState) (h : st.undoneShapes = []) : redoStep st = st := by
  simp [redoStep, h]

/-- `undo` is a no-op on an empty committed list. -/
theorem undoStep_noop (st : DrawerState) (h : st.shapes = []) : undoStep st = st := by
  simp [undoStep, h]

/-- `redo` undoes one `undo` exactly, on a non-empty committed list. -/
theorem redoStep_undoStep (st : DrawerState) (h : st.shapes ≠ []) :
    redoStep (undoStep st) = st := by
  rcases List.eq_nil_or_concat st.shapes with hnil | ⟨l, a, hc⟩
  · exact absurd hnil h
  · simp only [undoStep, hc, List.getLast?_concat, List.dropLast_concat, redoStep,
      List.getLast?_concat, List.dropLast_concat]
    cases st
    simp_all

/-- One `undo` shortens the committed list by one. -/
theorem undoStep_shapes_length (st : DrawerState) :
    (undoStep st).shapes.length = st.shapes.length - 1 := by
  rcases List.eq_nil_or_concat st.shapes with hnil | ⟨l, a, hc⟩
  · simp [undoStep, hnil]
  · simp [undoStep, hc, List.getLast?_concat, List.dropLast_concat]

/-- Iterated symmetry: `n` undos followed by `n` redos restore the full
drawer state, for any `n` up to the committed-list length. -/
theorem redo_undo_iter (n : Nat) (st : DrawerState) (h : n ≤ st.shapes.length) :
    redoStep^[n] (undoStep^[n] st) = st := by
  induction n generalizing st with
  | zero => simp
  | succ n ih =>
      have hne : st.shapes ≠ [] := by
        intro hnil
        rw [hnil] at h
        simp at h
      have h1 : undoStep^[n + 1] st = undoStep^[n] (undoStep st) :=
        Function.iterate_succ_apply undoStep n st
      have h2 : redoStep^[n + 1] (undoStep^[n] (undoStep st)) =
          redoStep (redoStep^[n] (undoStep^[n] (undoStep st))) :=
        Function.iterate_succ_apply' redoStep n (undoStep^[n] (undoStep st))
      rw [h1, h2, ih (undoStep st) (by rw [undoStep_shapes_length]; omega)]
      exact redoStep_undoStep st hne

/-- Helper: clicking the text tool appends the current in-progress
element (whatever it is) and empties the redo stack, whatever the
fill-toggle state and previously selected tool. -/
theorem clickShapeStep_text (st : DrawerState) (fillNo : Bool) :
    (clickShapeStep st "text" fillNo).shapes = st.shapes ++ [st.selectedElement] ∧
      (clickShapeStep st "text" fillNo).undoneShapes = [] := by
  unfold clickShapeStep
  by_cases hf : fillNo = true <;> by_cases hs : ("text" : String) ≠ st.selectedShape <;>
    simp [hf, hs]

/-- C3: for every committed list of `N` shapes, `undo()` `N` times then
`redo()` `N` times restores the entire drawer state (in particular the
committed list, in original order); `undo` on an empty committed list
and `redo` on an empty undone stack are no-ops and raise no error. -/
theorem undo_redo_symmetry (st : DrawerState) :
    redoStep^[st.shapes.length] (undoStep^[st.shapes.length] st) = st
  ∧ (st.shapes = [] → undoStep st = st)
  ∧ (st.undoneShapes = [] → redoStep st = st) :=
  ⟨redo_undo_iter st.shapes.length st le_rfl,
   fun h => undoStep_noop st h,
   fun h => redoStep_noop st h⟩

/-- Witness for `undo_redo_symmetry` at a two-shape state and at the
initial (empty) state. -/
theorem undo_redo_symmetry_witness :
    redoStep^[2] (undoStep^[2] stTwoShapes) = stTwoShapes
  ∧ undoStep initDrawer = initDrawer
  ∧ redoStep initDrawer = initDrawer :=
  ⟨(undo_redo_symmetry stTwoShapes).1,
   (undo_redo_symmetry initDrawer).2.1 rfl,
   (undo_redo_symmetry initDrawer).2.2 rfl⟩

/-- C2: every commit — `mouseup` of a non-text in-progress shape,
`Enter` on a text label (empty or not), a click on the text tool in the
shape list (the tool-switch that commits a text label), or a file load —
leaves `undoneShapes` empty, so an immediately following `redo` is a
no-op. -/
theorem commit_clears_redo (st : DrawerState) :
    (st.selectedElement.isSome → st.selectedShape ≠ "text" →
      (step st Ev.mouseup).undoneShapes = [] ∧
        redoStep (step st Ev.mouseup) = step st Ev.mouseup)
  ∧ (∀ ctrl shiftK : Bool, st.selectedShape = "text" → st.selectedElement.isSome →
      (step st (Ev.keypress "Enter" ctrl shiftK)).undoneShapes = [] ∧
        redoStep (step st (Ev.keypress "Enter" ctrl shiftK)) =
          step st (Ev.keypress "Enter" ctrl shiftK))
  ∧ (∀ fillNo : Bool,
      (step st (Ev.clickShape "text" fillNo)).undoneShapes = [] ∧
        redoStep (step st (Ev.clickShape "text" fillNo)) =
          step st (Ev.clickShape "text" fillNo))
  ∧ (∀ records : List Json,
      (step st (Ev.load records)).undoneShapes = [] ∧
        redoStep (step st (Ev.load records)) = step st (Ev.load records)) := by
  refine ⟨?_, ?_, ?_, ?_⟩
  · intro h1 h2
    have hu : (step st Ev.mouseup).undoneShapes = [] := by
      simp [step, mouseupStep, h1, h2]
    exact ⟨hu, redoStep_noop _ hu⟩
  · intro ctrl shiftK h1 h2
    have hu : (step st (Ev.keypress "Enter" ctrl shiftK)).undoneShapes = [] := by
      simp [step, keypressStep, textKeyPressStep, h1, h2]
    exact ⟨hu, redoStep_noop _ hu⟩
  · intro fillNo
    have hu : (step st (Ev.clickShape "text" fillNo)).undoneShapes = [] :=
      (clickShapeStep_text st fillNo).2
    exact ⟨hu, redoStep_noop _ hu⟩
  · intro records
    have hu : (step st (Ev.load records)).undoneShapes = [] := by
      simp [step, loadStep]
    exact ⟨hu, redoStep_noop _ hu⟩

/-- Witness for `commit_clears_redo`: a mid-drag rectangle commit, an
empty-text `Enter` commit, a text-tool click, and a load, each starting
from a state with stale redo history. -/
theorem commit_clears_redo_witness :
    ((step stInProgress Ev.mouseup).undoneShapes = [] ∧
      redoStep (step stInProgress Ev.mouseup) = step stInProgress Ev.mouseup)
  ∧ ((step stTextInProgress (Ev.keypress "Enter" false false)).undoneShapes = [] ∧
      redoStep (step stTextInProgress (Ev.keypress "Enter" false false)) =
        step stTextInProgress (Ev.keypress "Enter" false false))
  ∧ ((step stInProgress (Ev.clickShape "text" true)).undoneShapes = [] ∧
      redoStep (step stInProgress (Ev.clickShape "text" true)) =
        step stInProgress (Ev.clickShape "text" true))
  ∧ ((step stInProgress (Ev.load [Json.null])).undoneShapes = [] ∧
      redoStep (step stInProgress (Ev.load [Json.null])) =
        step stInProgress (Ev.load [Json.null])) :=
  ⟨(commit_clears_redo stInProgress).1 rfl (by decide),
   (commit_clears_redo stTextInProgress).2.1 false false rfl rfl,
   (commit_clears_redo stInProgress).2.2.1 true,
   (commit_clears_redo stInProgress).2.2.2 [Json.null]⟩

/-- C7: with the eraser tool selected and ambient stroke width `w > 0`,
`mousedown` creates an `EraseList` owning a settings snapshot of width
`w + 10`; its render sets the context line width to exactly `w + 10`,
which is never the raw `w`. -/
theorem eraser_width_offset (st : DrawerState) (pos : Pt)
    (hw : 0 < st.settings.width) (ht : st.selectedShape = "eraseList") :
    (step st (Ev.mousedown pos)).selectedElement =
      some (ShapeObj.eraseList pos { st.settings with width := st.settings.width + 10 } [] [])
  ∧ lineWidths
      (ShapeObj.eraseList pos { st.settings with width := st.settings.width + 10 } [] []).render
      = [st.settings.width + 10]
  ∧ st.settings.width + 10 ≠ st.settings.width := by
  refine ⟨?_, ?_, ?_⟩
  · simp [step, mousedownStep, ht, currentSettingsEraser]
  · simp [ShapeObj.render, renderSettingsCmds, curveCmds, lineWidths]
  · intro h
    have h0 : st.settings.width + 10 - st.settings.width = 0 := by rw [h]; ring
    have h10 : (10 : ℚ) = 0 := by linarith [h0]
    norm_num at h10

/-- Witness for `eraser_width_offset`: ambient width `10` yields an
eraser stroke of effective width `20`. -/
theorem eraser_width_offset_witness :
    (step stEraser (Ev.mousedown ⟨3, 4⟩)).selectedElement =
      some (ShapeObj.eraseList ⟨3, 4⟩
        { stEraser.settings with width := stEraser.settings.width + 10 } [] [])
  ∧ lineWidths
      (ShapeObj.eraseList ⟨3, 4⟩
        { stEraser.settings with width := stEraser.settings.width + 10 } [] []).render
      = [stEraser.settings.width + 10]
  ∧ stEraser.settings.width + 10 ≠ stEraser.settings.width
  ∧ stEraser.settings.width + 10 = 20 := by
  have h := eraser_width_offset stEraser ⟨3, 4⟩
    (by norm_num [stEraser, initDrawer, initialSettings]) rfl
  exact ⟨h.1, h.2.1, h.2.2, by norm_num [stEraser, initDrawer, initialSettings]⟩

/-- C8: `DrawnText` extension — `"Backspace"` removes the last
character (a no-op on an empty list), a single printable character is
appended at the end, any other key leaves the characters unchanged; in
particular `'H'`, `'i'`, `"Backspace"` yields `chars = ["H"]`. -/
theorem drawnText_extend_spec (p : Pt) (s : Settings) (cs : List String) (k : String) :
    resizeKeyShape (ShapeObj.drawnText p s cs) "Backspace" =
      ShapeObj.drawnText p s cs.dropLast
  ∧ (cs = [] → resizeKeyShape (ShapeObj.drawnText p s cs) "Backspace" =
      ShapeObj.drawnText p s [])
  ∧ (k.length = 1 → resizeKeyShape (ShapeObj.drawnText p s cs) k =
      ShapeObj.drawnText p s (cs ++ [k]))
  ∧ (k ≠ "Backspace" → k.length ≠ 1 → resizeKeyShape (ShapeObj.drawnText p s cs) k =
      ShapeObj.drawnText p s cs)
  ∧ resizeKeyShape (resizeKeyShape (resizeKeyShape
      (ShapeObj.drawnText ⟨5, 5⟩ initialSettings []) "H") "i") "Backspace" =
      ShapeObj.drawnText ⟨5, 5⟩ initialSettings ["H"] := by
  refine ⟨?_, ?_, ?_, ?_, ?_⟩
  · rcases cs with _ | ⟨c, cs'⟩ <;> simp [resizeKeyShape, resizeKey]
  · intro h
    subst h
    simp [resizeKeyShape, resizeKey]
  · intro hk
    have hkb : k ≠ "Backspace" := by
      intro h
      rw [h] at hk
      exact absurd hk (by decide)
    simp [resizeKeyShape, resizeKey, hkb, hk]
  · intro h1 h2
    simp [resizeKeyShape, resizeKey, h1, h2]
  · decide

/-- Witness for `drawnText_extend_spec`: backspace on `["H","i"]`,
backspace on the empty label, appending `"i"`, and ignoring `"Shift"`. -/
theorem drawnText_extend_spec_witness :
    resizeKeyShape (ShapeObj.drawnText ⟨5, 5⟩ initialSettings ["H", "i"]) "Backspace" =
      ShapeObj.drawnText ⟨5, 5⟩ initialSettings ["H"]
  ∧ resizeKeyShape (ShapeObj.drawnText ⟨0, 0⟩ initialSettings []) "Backspace" =
      ShapeObj.drawnText ⟨0, 0⟩ initialSettings []
  ∧ resizeKeyShape (ShapeObj.drawnText ⟨5, 5⟩ initialSettings ["H"]) "i" =
      ShapeObj.drawnText ⟨5, 5⟩ initialSettings ["H", "i"]
  ∧ resizeKeyShape (ShapeObj.drawnText ⟨5, 5⟩ initialSettings ["H"]) "Shift" =
      ShapeObj.drawnText ⟨5, 5⟩ initialSettings ["H"] := by
  refine ⟨?_, ?_, ?_, ?_⟩
  · simpa using (drawnText_extend_spec ⟨5, 5⟩ initialSettings ["H", "i"] "x").1
  · exact (drawnText_extend_spec ⟨0, 0⟩ initialSettings [] "x").2.1 rfl
  · simpa using (drawnText_extend_spec ⟨5, 5⟩ initialSettings ["H"] "i").2.2.1 (by decide)
  · exact (drawnText_extend_spec ⟨5, 5⟩ initialSettings ["H"] "Shift").2.2.2.1
      (by decide) (by decide)

/-- C10: clicking the text tool with nothing in progress still appends
an entry — a `null` — to the committed list and clears the redo stack;
the full redraw skips the `null` entry (identical command list), while
`undo` pops it like a real history step (and `redo` brings it back). -/
theorem text_tool_null_commit (st : DrawerState) (fillNo : Bool)
    (h : st.selectedElement = none) :
    (step st (Ev.clickShape "text" fillNo)).shapes = st.shapes ++ [none]
  ∧ (step st (Ev.clickShape "text" fillNo)).undoneShapes = []
  ∧ drawAllStoredShapes (st.shapes ++ [none]) = drawAllStoredShapes st.shapes
  ∧ (step (step st (Ev.clickShape "text" fillNo)) Ev.clickUndo).shapes = st.shapes
  ∧ (step (step st (Ev.clickShape "text" fillNo)) Ev.clickUndo).undoneShapes = [none]
  ∧ step (step (step st (Ev.clickShape "text" fillNo)) Ev.clickUndo) Ev.clickRedo =
      step st (Ev.clickShape "text" fillNo) := by
  have hs : (step st (Ev.clickShape "text" fillNo)).shapes = st.shapes ++ [none] := by
    rw [show step st (Ev.clickShape "text" fillNo) = clickShapeStep st "text" fillNo from rfl,
      (clickShapeStep_text st fillNo).1, h]
  have hu : (step st (Ev.clickShape "text" fillNo)).undoneShapes = [] :=
    (clickShapeStep_text st fillNo).2
  have hdraw : drawAllStoredShapes (st.shapes ++ [none]) = drawAllStoredShapes st.shapes := by
    simp [drawAllStoredShapes, List.foldl_append]
  have hundo : step (step st (Ev.clickShape "text" fillNo)) Ev.clickUndo =
      { step st (Ev.clickShape "text" fillNo) with
          shapes := st.shapes,
          undoneShapes := [none] } := by
    show undoStep _ = _
    rw [undoStep, hs, hu]
    simp [List.getLast?_concat, List.dropLast_concat]
  refine ⟨hs, hu, hdraw, by rw [hundo], by rw [hundo], ?_⟩
  have hne : (step st (Ev.clickShape "text" fillNo)).shapes ≠ [] := by
    rw [hs]
    simp
  exact redoStep_undoStep _ hne

/-- Witness for `text_tool_null_commit` starting from the freshly
initialized drawer (nothing in progress). -/
theorem text_tool_null_commit_witness :
    (step initDrawer (Ev.clickShape "text" false)).shapes = [none]
  ∧ (step initDrawer (Ev.clickShape "text" false)).undoneShapes = []
  ∧ drawAllStoredShapes [(none : Option ShapeObj)] = drawAllStoredShapes []
  ∧ (step (step initDrawer (Ev.clickShape "text" false)) Ev.clickUndo).shapes = []
  ∧ (step (step initDrawer (Ev.clickShape "text" false)) Ev.clickUndo).undoneShapes = [none] := by
  have h := text_tool_null_commit initDrawer false rfl
  exact ⟨by simpa using h.1, h.2.1, by simpa using h.2.2.1, h.2.2.2.1, h.2.2.2.2.1⟩

/-- C6: for a shape in the committed or undone lists of any reachable
state, mutating any field of the ambient settings afterwards (color,
width, fill flag, font) leaves the settings object the shape owns — and
hence the context commands its render's settings phase issues —
untouched. -/
theorem settings_snapshot_independent (st : HeapState) (hr : HeapReach st) (r : Nat)
    (hmem : r ∈ st.committedRefs ∨ r ∈ st.undoneRefs) :
    (∀ c, (hstep st (HEv.setColor c)).heap.get? r = st.heap.get? r)
  ∧ (∀ w, (hstep st (HEv.setWidth w)).heap.get? r = st.heap.get? r)
  ∧ (∀ b, (hstep st (HEv.setFilled b)).heap.get? r = st.heap.get? r)
  ∧ (∀ f, (hstep st (HEv.setFont f)).heap.get? r = st.heap.get? r)
  ∧ (∀ c, ((hstep st (HEv.setColor c)).heap.get? r).map renderSettingsCmds =
      (st.heap.get? r).map renderSettingsCmds) := by
  obtain ⟨hamb, hlen, hrefs⟩ := heapInv_of_reach hr
  have hr1 : 1 ≤ r := by
    rcases hmem with hm | hm
    · exact (hrefs r (Or.inl hm)).1
    · exact (hrefs r (Or.inr (Or.inl hm))).1
  have hne : st.ambient ≠ r := by omega
  have hget : ∀ v : Settings, (st.heap.set st.ambient v).get? r = st.heap.get? r :=
    fun v => get?_set_of_ne st.heap st.ambient r v hne
  refine ⟨fun c => hget _, fun w => hget _, fun b => hget _, fun f => hget _, fun c => ?_⟩
  rw [show (hstep st (HEv.setColor c)).heap =
    st.heap.set st.ambient
      { st.heap.getD st.ambient initialSettings with color := c } from rfl, hget]

/-- Witness for `settings_snapshot_independent`: after one begin-commit
round, recoloring and re-sizing the ambient settings leaves the
committed shape's snapshot cell (index 1) untouched. -/
theorem settings_snapshot_independent_witness :
    (hstep stHeapCommitted (HEv.setColor "#ff0000")).heap.get? 1 =
      stHeapCommitted.heap.get? 1
  ∧ (hstep stHeapCommitted (HEv.setWidth 3)).heap.get? 1 = stHeapCommitted.heap.get? 1
  ∧ (hstep stHeapCommitted (HEv.setFilled true)).heap.get? 1 = stHeapCommitted.heap.get? 1
  ∧ (hstep stHeapCommitted (HEv.setFont "12pt serif")).heap.get? 1 =
      stHeapCommitted.heap.get? 1 := by
  have hreach : HeapReach stHeapCommitted :=
    HeapReach.step _ HEv.commit (HeapReach.step _ HEv.beginShape HeapReach.init)
  have hmem : (1 ∈ stHeapCommitted.committedRefs ∨ 1 ∈ stHeapCommitted.undoneRefs) :=
    Or.inl (by decide)
  have h := settings_snapshot_independent stHeapCommitted hreach 1 hmem
  exact ⟨h.1 "#ff0000", h.2.1 3, h.2.2.1 true, h.2.2.2.1 "12pt serif"⟩

/-- Helper for C5: a record that is not `null` and whose tag matches no
case of the decode `switch` is skipped — the function returns without
error and without producing a shape. -/
theorem createShapeFromJson_skip (j : Json) (hnull : j ≠ Json.null)
    (htag : jsTag j ∉ knownTags) : createShapeFromJson j = Except.ok none := by
  simp only [knownTags, List.mem_cons, List.mem_singleton, not_or] at htag
  obtain ⟨h1, h2, h3, h4, h5, h6, h7⟩ := htag
  cases j with
  | null => exact absurd rfl hnull
  | bool b => simp [createShapeFromJson, h1, h2, h3, h4, h5, h6, h7]
  | num q => simp [createShapeFromJson, h1, h2, h3, h4, h5, h6, h7]
  | str s => simp [createShapeFromJson, h1, h2, h3, h4, h5, h6, h7]
  | arr xs => simp [createShapeFromJson, h1, h2, h3, h4, h5, h6, h7]
  | obj fs => simp [createShapeFromJson, h1, h2, h3, h4, h5, h6, h7]

/-- C5 (amended): after the unconditional reset of `selectedElement`,
`shapes` and `undoneShapes`, the decode loop skips every record that is
not `null` and carries an unknown or missing variant tag, and continues
with the remaining records; but a record on which reading the tag throws
— a JSON `null` — raises a `TypeError` that aborts decoding of all
remaining records. -/
theorem load_lenient_amended (j : Json) (rest : List Json)
    (acc : List (Option ShapeObj)) (hnull : j ≠ Json.null)
    (htag : jsTag j ∉ knownTags) :
    createShapeFromJson j = Except.ok none
  ∧ decodeAll (j :: rest) acc = decodeAll rest acc
  ∧ decodeAll (Json.null :: rest) acc = (acc, some JsError.typeError)
  ∧ (∀ (st : DrawerState) (records : List Json),
      (step st (Ev.load records)).undoneShapes = [] ∧
        (step st (Ev.load records)).selectedElement = none ∧
        (step st (Ev.load records)).shapes = (decodeAll records []).1) := by
  have hskip := createShapeFromJson_skip j hnull htag
  refine ⟨hskip, by simp [decodeAll, hskip], by simp [decodeAll, createShapeFromJson], ?_⟩
  intro st records
  exact ⟨rfl, rfl, rfl⟩

/-- Witness for `load_lenient_amended` at an unknown-tag record followed
by a valid rectangle record. -/
theorem load_lenient_amended_witness :
    createShapeFromJson (Json.obj [("type", Json.str "Triangle")]) = Except.ok none
  ∧ decodeAll [Json.obj [("type", Json.str "Triangle")], encodeShape goodRect] [] =
      decodeAll [encodeShape goodRect] []
  ∧ decodeAll [Json.null, encodeShape goodRect] [] = ([], some JsError.typeError)
  ∧ (step initDrawer (Ev.load [Json.null])).undoneShapes = [] := by
  have h := load_lenient_amended (Json.obj [("type", Json.str "Triangle")])
    [encodeShape goodRect] [] (fun hcon => Json.noConfusion hcon) (by decide)
  exact ⟨h.1, h.2.1, h.2.2.1, (h.2.2.2 initDrawer [Json.null]).1⟩

/-- C5 counterexample: the rectangle record decodes fine on its own, but
placed after a `null` record the whole remainder of the load is lost to
the thrown `TypeError` — a single bad record is fatal to the records
behind it, contradicting the claim that no single bad record is fatal. -/
theorem load_bad_record_fatal :
    decodeAll [encodeShape goodRect] [] = ([some goodRect], none)
  ∧ decodeAll [Json.null, encodeShape goodRect] [] = ([], some JsError.typeError) :=
  ⟨rfl, rfl⟩

/-- C9 counterexample: extend with mismatched argument types returns
normally — a numeric key to `DrawnText.resize` is silently ignored and
non-numeric string coordinates to `Rectangle.resize` silently produce
`NaN` dimensions; no error of any kind is signaled. -/
theorem extend_mismatch_not_signaled :
    drawnTextResizeJs ["H"] (JsArg.num 5) = Except.ok ["H"]
  ∧ (∀ e : JsError, drawnTextResizeJs ["H"] (JsArg.num 5) ≠ Except.error e)
  ∧ rectResizeJs ⟨10, 10⟩ (JsArg.str "a") (JsArg.str "b") = Except.ok (none, none)
  ∧ (∀ e : JsError, rectResizeJs ⟨10, 10⟩ (JsArg.str "a") (JsArg.str "b") ≠
      Except.error e) := by
  refine ⟨rfl, ?_, rfl, ?_⟩
  · intro e h
    exact Except.noConfusion h
  · intro e h
    rw [show rectResizeJs ⟨10, 10⟩ (JsArg.str "a") (JsArg.str "b") =
      Except.ok (none, none) from rfl] at h
    exact Except.noConfusion h

/-- C9 (amended): a type/variant-mismatched extend is silently absorbed,
never an error: any numeric key passed to a `DrawnText` leaves its
characters unchanged, and any non-numeric string coordinates passed to a
`Rectangle` yield `NaN` width and height; both calls return normally. -/
theorem extend_mismatch_silent (cs : List String) (q : ℚ) (p : Pt) (sx sy : String)
    (hx : jsToNumber sx = none) (hy : jsToNumber sy = none) :
    drawnTextResizeJs cs (JsArg.num q) = Except.ok cs
  ∧ rectResizeJs p (JsArg.str sx) (JsArg.str sy) = Except.ok (none, none) := by
  refine ⟨rfl, ?_⟩
  simp [rectResizeJs, argToNumber, hx, hy, subNaN]

/-- Witness for `extend_mismatch_silent` at the key value `5` and the
strings `"a"`, `"b"`. -/
theorem extend_mismatch_silent_witness :
    drawnTextResizeJs ["H"] (JsArg.num 5) = Except.ok ["H"]
  ∧ rectResizeJs ⟨3, 4⟩ (JsArg.str "a") (JsArg.str "b") = Except.ok (none, none) :=
  extend_mismatch_silent ["H"] 5 ⟨3, 4⟩ "a" "b" rfl rfl

/-- C1 (code bug): a dragged oval encodes to a record carrying its
second point `(4,6)`, but decoding that record rebuilds the oval through
the constructor, which resets the second point to the anchor — the
round-trip is not field-for-field for `Oval` (and `Circle`).  Variants
whose decode replays all stored geometry, such as `DrawnText`, do
round-trip. -/
theorem oval_roundtrip_loses_secondPoint :
    resizeShape (mkOval ⟨0, 0⟩ initialSettings 0 0) 4 6 = ovalDragged
  ∧ createShapeFromJson (encodeShape ovalDragged) = Except.ok (some ovalReloaded)
  ∧ ovalReloaded ≠ ovalDragged
  ∧ decodeAll [encodeShape (ShapeObj.drawnText ⟨5, 5⟩ initialSettings ["H", "i"])] [] =
      ([some (ShapeObj.drawnText ⟨5, 5⟩ initialSettings ["H", "i"])], none) := by
  refine ⟨?_, rfl, by decide, rfl⟩
  norm_num [ovalDragged, resizeShape, mkOval]

/-- C4 (code bug): rendering a freehand or erase stroke with raw points
`(2,2)`, `(4,4)` emits the interior smoothing segment (control `(2,2)`,
endpoint the midpoint `(3,3)`), then a curve whose endpoint reads index
2 — past the end of the point arrays, hence `NaN` — and a final curve
whose control and endpoint both read past the end; no emitted segment
ends at the last raw point `(4,4)`. -/
theorem stroke_render_out_of_range :
    (ShapeObj.lineList ⟨0, 0⟩ initialSettings [2, 4] [2, 4]).render =
      [RenderCmd.setCompositeSourceOver,
       RenderCmd.setFillStyle "#000000", RenderCmd.setStrokeStyle "#000000",
       RenderCmd.setLineWidth 10, RenderCmd.setFont "36pt sans-serif",
       RenderCmd.beginPath, RenderCmd.moveTo 0 0,
       RenderCmd.quadraticCurveTo (some 2) (some 2) (some 3) (some 3),
       RenderCmd.quadraticCurveTo (some 4) (some 4) none none,
       RenderCmd.quadraticCurveTo none none none none,
       RenderCmd.stroke, RenderCmd.closePath]
  ∧ (ShapeObj.eraseList ⟨0, 0⟩ initialSettings [2, 4] [2, 4]).render =
      [RenderCmd.setFillStyle "#000000", RenderCmd.setStrokeStyle "#000000",
       RenderCmd.setLineWidth 10, RenderCmd.setFont "36pt sans-serif",
       RenderCmd.beginPath, RenderCmd.setCompositeDestinationOut, RenderCmd.moveTo 0 0,
       RenderCmd.quadraticCurveTo (some 2) (some 2) (some 3) (some 3),
       RenderCmd.quadraticCurveTo (some 4) (some 4) none none,
       RenderCmd.quadraticCurveTo none none none none,
       RenderCmd.stroke, RenderCmd.closePath]
  ∧ RenderCmd.quadraticCurveTo (some 4) (some 4) none none ∈
      (ShapeObj.lineList ⟨0, 0⟩ initialSettings [2, 4] [2, 4]).render := by
  have h1 : (ShapeObj.lineList ⟨0, 0⟩ initialSettings [2, 4] [2, 4]).render =
      [RenderCmd.setCompositeSourceOver,
       RenderCmd.setFillStyle "#000000", RenderCmd.setStrokeStyle "#000000",
       RenderCmd.setLineWidth 10, RenderCmd.setFont "36pt sans-serif",
       RenderCmd.beginPath, RenderCmd.moveTo 0 0,
       RenderCmd.quadraticCurveTo (some 2) (some 2) (some 3) (some 3),
       RenderCmd.quadraticCurveTo (some 4) (some 4) none none,
       RenderCmd.quadraticCurveTo none none none none,
       RenderCmd.stroke, RenderCmd.closePath] := by
    norm_num [ShapeObj.render, renderSettingsCmds, curveCmds, quadSegment, addOpt,
      halfOpt, initialSettings, List.range_succ]
  refine ⟨h1, ?_, ?_⟩
  · norm_num [ShapeObj.render, renderSettingsCmds, curveCmds, quadSegment, addOpt,
      halfOpt, initialSettings, List.range_succ]
  · rw [h1]
    decide
